import Mathlib

/-!
# logear: listener (`in_logear_forwarder`) and forwarder (`fluentd_forwarder`)

A shallow embedding of the two plugins of the log shipper.

* Go values of type `interface{}` are the inductive `Value`; a Go
  `map[string]interface{}` is an association list, with `none` for the nil map.
* Everything the program obtains from outside (bytes on the wire, the clock,
  the random source, DNS, dialling, handshakes, the file system, the zlib and
  msgpack libraries, the absent `basiclogger` helpers) is an explicit argument.
* A runtime panic is a value (`Fault`), so that "does not fault" can be stated.
* `log.Fatalf` (process exit during start-up) is `none`.
-/

namespace Logear

set_option maxRecDepth 100000

/-! ## Go values -/

abbrev Byte := Nat

/-- An instant of time (`time.Time`), as a count of nanoseconds. -/
abbrev Time := Nat

/-- The dynamically typed values stored in a record (`interface{}`). -/
inductive Value
  | nil
  | str (s : String)
  | int (i : Int)
  | bool (b : Bool)
  | time (t : Time)
  | other (n : Nat)
  deriving DecidableEq, Repr

abbrev Fields := List (String × Value)

/-- A Go `map[string]interface{}`: `none` is the nil map. -/
abbrev GoMap := Option Fields

/-- The comma-ok lookup `_, ok := data[k]`. -/
def GoMap.has (data : GoMap) (k : String) : Bool :=
  match data with
  | none => false
  | some m => (m.lookup k).isSome

/-- The index expression `data[k]`: the zero value (nil) when the key is absent. -/
def GoMap.index (data : GoMap) (k : String) : Value :=
  match data with
  | none => Value.nil
  | some m => (m.lookup k).getD Value.nil

/-- The assignment `data[k] = x`; `none` is the panic
"assignment to entry in nil map". -/
def GoMap.assign (data : GoMap) (k : String) (x : Value) : Option GoMap :=
  match data with
  | none => none
  | some m => some (some ((k, x) :: m.filter (fun e => e.1 != k)))

/-- The record carried by the pipeline: `bl.Message`, declared in the absent
package `basiclogger`, with the two fields the plugins use. -/
structure Message where
  Time : Time
  Data : GoMap
  deriving DecidableEq, Repr

/-- Runtime panics. -/
inductive Fault
  | makeslice      -- makeslice: len out of range
  | nilConn        -- method call on a nil net.Conn
  | nilMap         -- assignment to entry in nil map
  | indexRange     -- index out of range
  | divideByZero   -- integer divide by zero
  deriving DecidableEq, Repr

deriving instance DecidableEq for Except

/-! ## Byte streams -/

/-- The result `(n, err)` of one `Read` call, with the buffer afterwards and
what is left of the source. -/
structure ReadOutcome where
  n : Nat
  err : Bool
  buf : List Byte
  rest : List Byte
  deriving DecidableEq, Repr

/-- One `Read(p)` call with `len(p) = len` on a source holding `src`:
the call delivers at most `chunk` bytes (and never more than the buffer or
the source holds) and reports an error or not as `err` says. -/
def readInto (chunk : Nat) (err : Bool) (len : Nat) (src : List Byte) : ReadOutcome :=
  let n := min chunk (min len src.length)
  { n := n, err := err, buf := src.take n ++ List.replicate (len - n) 0, rest := src.drop n }

/-- The value of `binary.BigEndian.Uint64`. -/
def beUint64 (bs : List Byte) : Nat :=
  bs.foldl (fun acc b => acc * 256 + b % 256) 0

/-- The conversion `int64(x)` of an unsigned 64-bit value (two's complement). -/
def toInt64 (n : Nat) : Int :=
  if n % 2 ^ 64 < 2 ^ 63 then ((n % 2 ^ 64 : Nat) : Int) else ((n % 2 ^ 64 : Nat) : Int) - 2 ^ 64

/-- The 8 bytes that `binary.Write` with `binary.BigEndian` produces for an int64. -/
def encodeInt64 (x : Int) : List Byte :=
  let u := (x % 2 ^ 64).toNat
  (List.range 8).reverse.map (fun i => u / 256 ^ i % 256)

namespace in_logear_forwarder

/-- The method `readInt64`: `binary.Read` of a big-endian int64, which reads exactly 8
bytes or fails. -/
def readInt64 (r : List Byte) : Option (Int × List Byte) :=
  if 8 ≤ r.length then some (toInt64 (beUint64 (r.take 8)), r.drop 8) else none

/-- What the worker needs from its surroundings. -/
structure WorkerEnv where
  /-- Largest length `make([]byte, n)` can allocate. -/
  maxLen : Nat
  /-- The call `zlib.NewReader` on the frame body: `none` when it returns an error,
  otherwise the bytes the stream decompresses to. -/
  inflate : List Byte → Option (List Byte)
  /-- The call `msgpack.Unmarshal` into a `map[string]interface{}`: `none` is an error. -/
  unmarshal : List Byte → Option GoMap

/-- The outcomes of one loop iteration that the program does not control. -/
structure IterOracle where
  connChunk : Nat
  connErr : Bool
  zChunk : Nat
  /-- Whether the read of line 152 returns an error. The reader of
  `compress/zlib` returns `io.EOF` together with the last bytes of its stream,
  so this is the case whenever the read reaches the end of the stream. -/
  zErr : Bool
  /-- The reading `time.Now()` of line 166. -/
  tStamp : Time
  /-- The reading `time.Now()` of line 168. -/
  tMsg : Time

/-- The allocation `make([]byte, n)` for a signed length (on a 64-bit platform
`int(csize)` is `csize` itself): `none` is the panic, for a negative length and
for one beyond what can be allocated. -/
def makeBytes (maxLen : Nat) (n : Int) : Option Nat :=
  if n < 0 ∨ (maxLen : Int) < n then none else some n.toNat

inductive CloseReason
  | csize | size | cpayload | zlibStart | uncompress | parse
  deriving DecidableEq, Repr

/-- How one iteration of the worker loop ends. -/
inductive IterResult
  | handed (m : Message) (rest : List Byte)
  | closed (why : CloseReason)
  | fault (f : Fault)
  deriving DecidableEq, Repr

/-- A decoded frame: the mapping, and what the connection still delivers. -/
structure Decoded where
  data : GoMap
  /-- The bytes the frame body decompresses to. -/
  stream : List Byte
  rest : List Byte
  deriving DecidableEq, Repr

/-- Lines 123-164 of `worker`: read the two lengths and the body, decompress
and deserialise. An error ends the iteration (`Except.error`) by closing the
connection or by a panic. -/
def decodeFrame (env : WorkerEnv) (o : IterOracle) (input : List Byte) :
    Except IterResult Decoded :=
  match readInt64 input with
  | none => .error (.closed .csize)
  | some (csize, r1) =>
    match readInt64 r1 with
    | none => .error (.closed .size)
    | some (size, r2) =>
      match makeBytes env.maxLen csize with
      | none => .error (.fault .makeslice)
      | some clen =>
        let rd := readInto o.connChunk o.connErr clen r2
        if rd.err ∨ (rd.n : Int) ≠ csize then .error (.closed .cpayload)
        else
          match env.inflate rd.buf with
          | none => .error (.closed .zlibStart)
          | some stream =>
            match makeBytes env.maxLen size with
            | none => .error (.fault .makeslice)
            | some len =>
              let zr := readInto o.zChunk o.zErr len stream
              if zr.err ∨ (zr.n : Int) ≠ size then .error (.closed .uncompress)
              else
                match env.unmarshal zr.buf with
                | none => .error (.closed .parse)
                | some data => .ok { data := data, stream := stream, rest := rd.rest }

/-- One iteration of the `for` loop of `worker` (lines 123-168), on a
connection that still delivers the bytes `input`: decode a frame, add the
key `@timestamp` when it is absent (lines 165-167), hand the record to the
queue (line 168). -/
def workerIter (env : WorkerEnv) (o : IterOracle) (input : List Byte) : IterResult :=
  match decodeFrame env o input with
  | .error r => r
  | .ok d =>
    if d.data.has "@timestamp" then
      .handed { Time := o.tMsg, Data := d.data } d.rest
    else
      match d.data.assign "@timestamp" (Value.time o.tStamp) with
      | none => .fault .nilMap
      | some data1 => .handed { Time := o.tMsg, Data := data1 } d.rest

/-- How a worker ends: the records it handed to the sink, and why it stopped. -/
inductive WorkerResult
  | closed (why : CloseReason) (sent : List Message)
  | fault (f : Fault) (sent : List Message)
  | running (sent : List Message)
  deriving DecidableEq, Repr

/-- The `for` loop of `worker`, at most `fuel` iterations. -/
def workerLoop (env : WorkerEnv) (oracle : Nat → IterOracle) :
    Nat → Nat → List Byte → List Message → WorkerResult
  | 0, _, _, sent => .running sent
  | fuel + 1, k, input, sent =>
    match workerIter env (oracle k) input with
    | .handed m rest => workerLoop env oracle fuel (k + 1) rest (sent ++ [m])
    | .closed why => .closed why sent
    | .fault f => .fault f sent

/-- The method `worker(conn)`: `conn` is `none` for a nil `net.Conn`, on which the call
`conn.RemoteAddr()` of line 121 panics. -/
def worker (env : WorkerEnv) (oracle : Nat → IterOracle) (conn : Option Nat)
    (input : List Byte) : WorkerResult :=
  match conn with
  | none => .fault .nilConn []
  | some _ => workerLoop env oracle (input.length / 16 + 1) 0 input []

end in_logear_forwarder

/-! ## Transport security material -/

/-- A certificate with its private key (`tls.Certificate`). -/
structure Certificate where
  id : Nat
  deriving DecidableEq, Repr

/-- A parsed certificate (`x509.Certificate`). -/
structure X509 where
  id : Nat
  deriving DecidableEq, Repr

/-- A PEM block (`pem.Block`). -/
structure PemBlock where
  type : String
  bytes : List Byte
  deriving DecidableEq, Repr

/-- The client-authentication modes of `crypto/tls`, in their declared order. -/
inductive ClientAuthType
  | NoClientCert
  | RequestClientCert
  | RequireAnyClientCert
  | VerifyClientCertIfGiven
  | RequireAndVerifyClientCert
  deriving DecidableEq, Repr

def VersionTLS10 : Nat := 0x0301
def VersionTLS12 : Nat := 0x0303

/-- The fields of `tls.Config` the program touches; a certificate pool is the
list of certificates added to it, `none` when no pool was created. -/
structure TlsConfig where
  MinVersion : Nat := 0
  Certificates : List Certificate := []
  RootCAs : Option (List X509) := none
  ClientCAs : Option (List X509) := none
  ClientAuth : ClientAuthType := ClientAuthType.NoClientCert
  ServerName : String := ""
  deriving DecidableEq, Repr

/-- The file system and the certificate parsers; `none` is a returned error
(for `pemDecode`, a nil block). -/
structure CertEnv where
  LoadX509KeyPair : String → String → Option Certificate
  ReadFile : String → Option (List Byte)
  pemDecode : List Byte → Option PemBlock
  ParseCertificate : List Byte → Option X509

/-- The configuration keys the two plugins read through the `bl.G...`
accessors. -/
structure Conf where
  tag : String := ""
  bind : String := ""
  timeout : Int := 0
  ssl_cert : String := ""
  ssl_key : String := ""
  ssl_ca : String := ""
  hosts : List String := []
  deriving DecidableEq, Repr

namespace in_logear_forwarder

structure In_logear_forwarder where
  tag : String
  tlsConfig : TlsConfig
  bind : String
  /-- In seconds. -/
  timeout : Int
  deriving DecidableEq, Repr

/-- The constructor `Init` (lines 39-93); `none` is `log.Fatalf`. -/
def Init (ce : CertEnv) (conf : Conf) : Option In_logear_forwarder :=
  let tlsConfig : TlsConfig := {}
  if conf.timeout ≤ 0 then none
  else if 0 < conf.ssl_cert.length ∧ 0 < conf.ssl_key.length then
    let tlsConfig := { tlsConfig with MinVersion := VersionTLS12 }
    match ce.LoadX509KeyPair conf.ssl_cert conf.ssl_key with
    | none => none
    | some cert =>
      let tlsConfig := { tlsConfig with Certificates := [cert] }
      if 0 < conf.ssl_ca.length then
        let tlsConfig := { tlsConfig with
          ClientCAs := some [], ClientAuth := ClientAuthType.RequireAndVerifyClientCert }
        match ce.ReadFile conf.ssl_ca with
        | none => none
        | some pemdata =>
          match ce.pemDecode pemdata with
          | none => none
          | some block =>
            if block.type ≠ "CERTIFICATE" then none
            else
              match ce.ParseCertificate block.bytes with
              | none => none
              | some cacert =>
                let tlsConfig := { tlsConfig with
                  ClientCAs := tlsConfig.ClientCAs.map (fun pool => pool ++ [cacert]) }
                some { tag := conf.tag, tlsConfig := tlsConfig, bind := conf.bind,
                       timeout := conf.timeout }
      else
        some { tag := conf.tag, tlsConfig := tlsConfig, bind := conf.bind,
               timeout := conf.timeout }
  else none

/-! ### The accept loop -/

/-- One result `(conn, err)` of `listener.Accept()`, with what the peer then
sends on the connection and the outcomes of the reads on it. -/
structure Accept where
  conn : Option Nat
  err : Bool
  input : List Byte
  oracle : Nat → IterOracle

/-- How the accept loop stands after a number of accepts. -/
inductive ListenResult
  | fatal
  | crashed (f : Fault) (done : List WorkerResult)
  | accepting (done : List WorkerResult)
  deriving DecidableEq, Repr

/-- The `for` loop of `listen` (lines 110-116) over the given accept results.
Each worker is a goroutine; a panic in one of them ends the process, which is
`crashed`. The error of an accept is logged and nothing else. -/
def acceptLoop (env : WorkerEnv) : List Accept → List WorkerResult → ListenResult
  | [], done => .accepting done
  | a :: rest, done =>
    match worker env a.oracle a.conn a.input with
    | .fault f sent => .crashed f (done ++ [.fault f sent])
    | r => acceptLoop env rest (done ++ [r])

/-- The method `listen` (lines 103-117): `bound` is whether `tls.Listen` succeeded. -/
def listen (env : WorkerEnv) (bound : Bool) (accepts : List Accept) : ListenResult :=
  if bound then acceptLoop env accepts [] else .fatal

end in_logear_forwarder

namespace fluentd_forwarder

/-! ## The forwarder -/

/-- A connection held in `v.conn`. `closed` records that `Close` was called on
it (or on the TLS connection wrapping it). -/
structure Conn where
  addr : String
  tls : Bool
  closed : Bool
  deriving DecidableEq, Repr

structure Fluentd_forwarder where
  tag : String
  conn : Option Conn
  SSLCertificate : String
  SSLKey : String
  SSLCA : String
  tlsConfig : TlsConfig
  tlsEnabled : Bool
  host : String
  hosts : List String
  /-- In seconds. -/
  timeout : Int
  deriving DecidableEq, Repr

/-- Errors returned inside the forwarder. -/
inductive GoError
  | parse | dns | dial | handshake | marshal | write
  deriving DecidableEq, Repr

/-- What the forwarder does to the outside world. -/
inductive Event
  | lookupFailed (host : String)
  | dialFailed (addr : String)
  | dialed (addr : String)
  | handshake (serverName : String) (ok : Bool)
  | closed (c : Conn)
  | wrote (c : Conn) (bytes : List Byte)
  | writeFailed (c : Conn)
  | sleep
  | bogusTimestamp
  | bogusMessage
  deriving DecidableEq, Repr

/-! ### `hostport_re` -/

/-- The attempt of `^(.+):([0-9]+)$` with the first group taking the first `i`
characters: the groups, when the rest is a colon followed by digits only. -/
def matchAt (cs : List Char) (i : Nat) : Option (List Char × List Char) :=
  let g1 := cs.take i
  match cs.drop i with
  | ':' :: g2 =>
    if g1 ≠ [] ∧ g1.all (fun c => c != Char.ofNat 10) ∧ g2 ≠ [] ∧ g2.all Char.isDigit
    then some (g1, g2) else none
  | _ => none

/-- The call `hostport_re.FindSubmatch`: the whole match and the two groups, or `none`
(a nil slice) when the text does not match. The first group is greedy: the
longest one that lets the rest match is taken. -/
def FindSubmatch (s : String) : Option (List String) :=
  ((List.range (s.length + 1)).reverse.findSome? (matchAt s.toList)).map
    (fun g => [s, String.mk g.1, String.mk g.2])

/-! ### `connect` -/

/-- An address returned by the resolver: its length in bytes and its text
(`ip.String()`). -/
structure IP where
  len : Nat
  text : String
  deriving DecidableEq, Repr

/-- The outcomes of one `connect` call that the program does not control. -/
structure ConnectOracle where
  /-- First `rand.Int()`. -/
  r1 : Nat
  /-- The call `net.LookupIP`; `none` is an error. -/
  LookupIP : String → Option (List IP)
  /-- Second `rand.Int()`. -/
  r2 : Nat
  /-- Whether `net.DialTimeout` to the address succeeds. -/
  dialOk : String → Bool
  /-- Whether `connTLS.Handshake()` succeeds. -/
  handshakeOk : Bool

/-- The result of `connect`: the returned error, the forwarder afterwards and
what was done. -/
structure Connected where
  err : Option GoError
  v : Fluentd_forwarder
  events : List Event
  deriving DecidableEq, Repr

/-- The method `connect` (lines 113-161). A failed lookup or dial returns the
error with the forwarder as it was; after a successful dial the raw connection
is stored (line 143) before the handshake is tried. -/
def connect (o : ConnectOracle) (v : Fluentd_forwarder) : Except Fault Connected :=
  if v.hosts.length = 0 then .error .divideByZero
  else
    match v.hosts.get? (o.r1 % v.hosts.length) with
    | none => .error .indexRange
    | some hostport =>
      let submatch := (FindSubmatch hostport).getD []
      match submatch.get? 1, submatch.get? 2 with
      | some host, some port =>
        match o.LookupIP host with
        | none => .ok { err := some .dns, v := v, events := [.lookupFailed host] }
        | some ips =>
          if ips.length = 0 then .error .divideByZero
          else
            match ips.get? (o.r2 % ips.length) with
            | none => .error .indexRange
            | some ip =>
              let address := ip.text
              let addressport :=
                if ip.len = 4 then address ++ ":" ++ port
                else if ip.len = 16 then "[" ++ address ++ "]:" ++ port
                else ""
              if o.dialOk addressport = false then
                .ok { err := some .dial, v := v, events := [.dialFailed addressport] }
              else
                let conn : Conn := { addr := addressport, tls := false, closed := false }
                let v := { v with host := host, conn := some conn }
                if v.tlsEnabled then
                  let v := { v with tlsConfig := { v.tlsConfig with ServerName := host } }
                  if o.handshakeOk = false then
                    let connTLS : Conn := { conn with tls := true, closed := true }
                    .ok { err := some .handshake,
                          v := { v with conn := some { conn with closed := true } },
                          events := [.dialed addressport, .handshake host false, .closed connTLS] }
                  else
                    .ok { err := none,
                          v := { v with conn := some { conn with tls := true } },
                          events := [.dialed addressport, .handshake host true] }
                else
                  .ok { err := none, v := v, events := [.dialed addressport] }
      | _, _ => .error .indexRange

/-! ### `loadCerts` and `Init` -/

/-- The method `loadCerts` (lines 163-201); `none` is `log.Fatalf`. -/
def loadCerts (ce : CertEnv) (v : Fluentd_forwarder) : Option Fluentd_forwarder :=
  let v := { v with tlsEnabled := false }
  let v := { v with tlsConfig := { v.tlsConfig with MinVersion := VersionTLS10 } }
  let withCert : Option Fluentd_forwarder :=
    if 0 < v.SSLCertificate.length ∧ 0 < v.SSLKey.length then
      match ce.LoadX509KeyPair v.SSLCertificate v.SSLKey with
      | none => none
      | some cert =>
        some { v with tlsConfig := { v.tlsConfig with Certificates := [cert] },
                      tlsEnabled := true }
    else some v
  match withCert with
  | none => none
  | some v =>
    if 0 < v.SSLCA.length then
      let v := { v with tlsConfig := { v.tlsConfig with RootCAs := some [] } }
      match ce.ReadFile v.SSLCA with
      | none => none
      | some pemdata =>
        match ce.pemDecode pemdata with
        | none => none
        | some block =>
          if block.type ≠ "CERTIFICATE" then none
          else
            match ce.ParseCertificate block.bytes with
            | none => none
            | some cert =>
              some { v with
                tlsConfig := { v.tlsConfig with
                  RootCAs := v.tlsConfig.RootCAs.map (fun pool => pool ++ [cert]) },
                tlsEnabled := true }
    else some v

/-- The constructor `Init` (lines 43-70); `none` is `log.Fatalf`. -/
def Init (ce : CertEnv) (conf : Conf) : Option Fluentd_forwarder :=
  if conf.hosts.length = 0 then none
  else if conf.timeout ≤ 0 then none
  else
    loadCerts ce
      { tag := conf.tag, conn := none, hosts := conf.hosts,
        SSLCertificate := conf.ssl_cert, SSLKey := conf.ssl_key, SSLCA := conf.ssl_ca,
        timeout := conf.timeout, tlsConfig := {}, tlsEnabled := false, host := "" }

/-! ### `Send` -/

/-- What `Send` needs from its surroundings. -/
structure SendEnv where
  /-- The package variable `hostname`. -/
  hostname : String
  /-- The helper `bl.GString`, of the absent package `basiclogger`. -/
  GString : String → GoMap → String
  /-- The call `time.Parse(bl.TIMEFORMAT, s)`; `none` is an error. -/
  parseTime : String → Option Time
  /-- The call `t.Format(bl.TIMEFORMAT)`. -/
  format : Time → String
  /-- The value `time.Now().UnixNano()` of line 82. -/
  now : Int
  /-- The call `msgpack.Marshal` of the triple tag, time, fields; `none` is an error. -/
  Marshal : String → Int → GoMap → Option (List Byte)

/-- The outcomes of one iteration of the retry loop that the program does not
control. -/
structure Attempt where
  c : ConnectOracle
  /-- Whether `v.conn.Write(m)` succeeds on an open connection. -/
  writeOk : Bool

/-- How `Send` ends. `retrying` is the loop still running when the given
outcomes have been used up. -/
inductive SendResult
  | returned (err : Option GoError) (v : Fluentd_forwarder) (m : Message) (trace : List Event)
  | fault (f : Fault) (trace : List Event)
  | retrying (v : Fluentd_forwarder) (m : Message) (trace : List Event)
  deriving DecidableEq, Repr

/-- The `for` loop of `Send` (lines 83-109), one iteration per `Attempt`;
`err` is the variable `err` of line 77, which the loop does not assign (the
`err` of lines 94-101 is declared by `:=` inside the loop body). -/
def sendLoop (env : SendEnv) (err : Option GoError) :
    List Attempt → Fluentd_forwarder → Message → List Event → SendResult
  | [], v, m, tr => .retrying v m tr
  | a :: rest, v, m, tr =>
    let step : Except Fault Connected :=
      if v.conn.isNone then connect a.c v else .ok { err := none, v := v, events := [] }
    match step with
    | .error f => .fault f tr
    | .ok r =>
      if r.err.isSome then sendLoop env err rest r.v m (tr ++ r.events ++ [.sleep])
      else
        let v := r.v
        let tr := tr ++ r.events
        let data : Option GoMap :=
          if m.Data.index "host" = Value.nil ∨ m.Data.index "host" = Value.str "" then
            m.Data.assign "host" (Value.str env.hostname)
          else some m.Data
        match data with
        | none => .fault .nilMap tr
        | some data =>
          let m := { m with Data := data }
          match env.Marshal v.tag env.now m.Data with
          | none => .returned err v m (tr ++ [.bogusMessage])
          | some bytes =>
            match v.conn with
            | none => .fault .nilConn tr
            | some c =>
              if a.writeOk && !c.closed then .returned err v m (tr ++ [.wrote c bytes])
              else
                sendLoop env err rest { v with conn := none } m
                  (tr ++ [.writeFailed c, .closed c, .sleep])

/-- The method `Send` (lines 76-111), with the outcomes of its retries. -/
def Send (env : SendEnv) (attempts : List Attempt) (v : Fluentd_forwarder) (message : Message) :
    SendResult :=
  match env.parseTime (env.GString "@timestamp" message.Data) with
  | some _ => sendLoop env none attempts v message []
  | none =>
    match message.Data.assign "@timestamp" (Value.str (env.format message.Time)) with
    | none => .fault .nilMap [.bogusTimestamp]
    | some data =>
      sendLoop env (some .parse) attempts v { message with Data := data } [.bogusTimestamp]

/-- Lines 78-81 on their own: the fields after the check of the timestamp,
which replaces `@timestamp` by the formatted `Time` of the record when the
text under it does not parse; `none` is the panic of an assignment to a nil
map. Stated apart from `Send`, to say which record `Send` sends. -/
def checkedTimestamp (env : SendEnv) (message : Message) : Option GoMap :=
  match env.parseTime (env.GString "@timestamp" message.Data) with
  | some _ => some message.Data
  | none => message.Data.assign "@timestamp" (Value.str (env.format message.Time))

/-- Lines 90-92 on their own: the fields after the host is set to the local
hostname when it is absent, nil or empty; `none` is the panic of an
assignment to a nil map. Stated apart from `Send`, as `checkedTimestamp`. -/
def defaultedHost (env : SendEnv) (data : GoMap) : Option GoMap :=
  if data.index "host" = Value.nil ∨ data.index "host" = Value.str "" then
    data.assign "host" (Value.str env.hostname)
  else some data

end fluentd_forwarder

/-! ## Concrete inputs -/

/-- A file system with a server key pair and a CA file holding one
certificate. -/
def demoCerts : CertEnv where
  LoadX509KeyPair := fun c k => if c = "server.crt" ∧ k = "server.key" then some ⟨1⟩ else none
  ReadFile := fun f => if f = "ca.crt" then some [45, 45, 45] else none
  pemDecode := fun b =>
    if b = [45, 45, 45] then some { type := "CERTIFICATE", bytes := [48, 130] } else none
  ParseCertificate := fun b => if b = [48, 130] then some ⟨7⟩ else none

namespace in_logear_forwarder

/-- The msgpack encoding of the mapping with the single entry msg: hello. -/
def helloPayload : List Byte := [129, 163, 109, 115, 103, 165, 104, 101, 108, 108, 111]

/-- The zlib stream of `helloPayload`. -/
def helloBody : List Byte :=
  [120, 156, 107, 92, 156, 91, 156, 190, 52, 35, 53, 39, 39, 31, 0, 32, 55, 5, 37]

/-- The zlib stream of `helloPayload` followed by one more byte (192). -/
def longBody : List Byte :=
  [120, 156, 107, 92, 156, 91, 156, 190, 52, 35, 53, 39, 39, 255, 0, 0, 38, 28, 5, 229]

/-- The two libraries on the bodies above, and a runtime that allocates up to
2^31 bytes. -/
def demoEnv : WorkerEnv where
  maxLen := 2 ^ 31
  inflate := fun body =>
    if body = helloBody then some helloPayload
    else if body = longBody then some (helloPayload ++ [192])
    else none
  unmarshal := fun payload =>
    if payload = helloPayload then some (some [("msg", Value.str "hello")]) else none

/-- Reads that deliver everything asked for without error, as they do when
the source holds more than is asked for; the clock reads 1000 and then 2000. -/
def demoOracle : IterOracle where
  connChunk := 65536
  connErr := false
  zChunk := 65536
  zErr := false
  tStamp := 1000
  tMsg := 2000

/-- Reads that deliver everything asked for, the zlib read reporting the end
of its stream (`io.EOF`) along with the bytes, as it does when the stream
holds no more than is asked for. -/
def eofOracle : IterOracle := { demoOracle with zErr := true }

/-- A frame that declares 11 uncompressed bytes and whose body decompresses
to 12. -/
def longFrame : List Byte := encodeInt64 20 ++ encodeInt64 11 ++ longBody

/-- A frame header with the compressed length -1. -/
def negativeFrame : List Byte := encodeInt64 (-1) ++ encodeInt64 11 ++ helloBody

/-- A canonical textual time format, for the examples. -/
def demoFormat (t : Time) : String := "T+" ++ toString t

/-- An accept that fails: a nil connection and an error. -/
def failedAccept : Accept where
  conn := none
  err := true
  input := []
  oracle := fun _ => demoOracle

/-- An accept that succeeds, on a connection sending the frame `longFrame`,
which the worker decodes, and nothing more. -/
def goodAccept : Accept where
  conn := some 1
  err := false
  input := longFrame
  oracle := fun _ => demoOracle

/-- An accept that succeeds, on a connection sending `negativeFrame`. -/
def negativeAccept : Accept where
  conn := some 2
  err := false
  input := negativeFrame
  oracle := fun _ => demoOracle

/-- A listener configuration with a key pair and a CA. -/
def mutualConf : Conf where
  tag := "in"
  bind := "0.0.0.0:5140"
  timeout := 30
  ssl_cert := "server.crt"
  ssl_key := "server.key"
  ssl_ca := "ca.crt"

end in_logear_forwarder

namespace fluentd_forwarder

/-- Parsing of the example time format: the text `T+` followed by decimal
digits. -/
def demoParse (s : String) : Option Time :=
  match s.toList with
  | 'T' :: '+' :: ds =>
    if ds ≠ [] ∧ ds.all Char.isDigit then
      some (ds.foldl (fun n c => 10 * n + (c.toNat - 48)) 0)
    else none
  | _ => none

/-- The surroundings of `Send` in the examples: `GString` returns the string
under the key, or the empty string; serialisation fails on a value of an
unsupported kind. -/
def demoSendEnv : SendEnv where
  hostname := "shipper"
  GString := fun k data =>
    match data.index k with
    | Value.str s => s
    | _ => ""
  parseTime := demoParse
  format := fun t => "T+" ++ toString t
  now := 42
  Marshal := fun tag _ data =>
    if (data.getD []).any (fun e => match e.2 with
        | Value.other _ => true
        | _ => false)
    then none else some (147 :: tag.toList.map Char.toNat)

/-- A resolver that knows one name. -/
def demoLookup (host : String) : Option (List IP) :=
  if host = "logs.example.org" then some [{ len := 4, text := "192.0.2.10" }] else none

/-- A connect in which everything succeeds. -/
def okConnect : ConnectOracle where
  r1 := 0
  LookupIP := demoLookup
  r2 := 0
  dialOk := fun _ => true
  handshakeOk := true

/-- A connect in which the dial succeeds and the handshake fails. -/
def badHandshake : ConnectOracle := { okConnect with handshakeOk := false }

/-- A connect in which the dial fails. -/
def badDial : ConnectOracle := { okConnect with dialOk := fun _ => false }

/-- A forwarder as `Init` builds it for one destination, with or without
transport security. -/
def demoForwarder (tls : Bool) : Fluentd_forwarder where
  tag := "out"
  conn := none
  SSLCertificate := ""
  SSLKey := ""
  SSLCA := ""
  tlsConfig := { MinVersion := VersionTLS10 }
  tlsEnabled := tls
  host := ""
  hosts := ["logs.example.org:24224"]
  timeout := 5

/-- A record without `@timestamp`. -/
def helloMessage : Message where
  Time := 2000
  Data := some [("msg", Value.str "hello")]

/-- A record with a well-formed `@timestamp`. -/
def stampedMessage : Message where
  Time := 2000
  Data := some [("@timestamp", Value.str "T+1999"), ("msg", Value.str "hello")]

/-- A forwarder configuration with a CA file and no key pair. -/
def caOnlyConf : Conf where
  tag := "out"
  timeout := 5
  ssl_ca := "ca.crt"
  hosts := ["logs.example.org:24224"]

/-- A forwarder configuration whose only destination has no port. -/
def noPortConf : Conf where
  tag := "out"
  timeout := 5
  hosts := ["localhost"]

/-- The plaintext connection the examples open. -/
def rawConn : Conn where
  addr := "192.0.2.10:24224"
  tls := false
  closed := false

/-- The forwarder `demoForwarder false` once connected. -/
def connectedForwarder : Fluentd_forwarder :=
  { demoForwarder false with conn := some rawConn, host := "logs.example.org" }

/-- The forwarder `demoForwarder true` once connected and the handshake done. -/
def securedForwarder : Fluentd_forwarder :=
  { demoForwarder true with
    conn := some { rawConn with tls := true }
    host := "logs.example.org"
    tlsConfig := { MinVersion := VersionTLS10, ServerName := "logs.example.org" } }

/-- The forwarder `demoForwarder true` after a failed handshake: it still
holds the raw connection, now closed. -/
def staleForwarder : Fluentd_forwarder :=
  { demoForwarder true with
    conn := some { rawConn with closed := true }
    host := "logs.example.org"
    tlsConfig := { MinVersion := VersionTLS10, ServerName := "logs.example.org" } }

/-- Three iterations of the retry loop: a failed dial, a failed write, a
success. -/
def retries : List Attempt :=
  [{ c := badDial, writeOk := true }, { c := okConnect, writeOk := false },
   { c := okConnect, writeOk := true }]

/-- What the peer receives for a record with tag out. -/
def sentBytes : List Byte := [147, 111, 117, 116]

/-- The record `stampedMessage` as sent. -/
def sentStamped : Message where
  Time := 2000
  Data := some [("host", Value.str "shipper"), ("@timestamp", Value.str "T+1999"),
    ("msg", Value.str "hello")]

/-- The record `helloMessage` as sent. -/
def sentHello : Message where
  Time := 2000
  Data := some [("host", Value.str "shipper"), ("@timestamp", Value.str "T+2000"),
    ("msg", Value.str "hello")]

/-- What `Send` does over `retries`. -/
def retriesTrace : List Event :=
  [.dialFailed "192.0.2.10:24224", .sleep,
   .dialed "192.0.2.10:24224", .handshake "logs.example.org" true,
   .writeFailed { rawConn with tls := true }, .closed { rawConn with tls := true }, .sleep,
   .dialed "192.0.2.10:24224", .handshake "logs.example.org" true,
   .wrote { rawConn with tls := true } sentBytes]

end fluentd_forwarder

/-! ## Theorems: the listener -/

namespace in_logear_forwarder

theorem encodeInt64_length (x : Int) : (encodeInt64 x).length = 8 := by
  simp [encodeInt64]

theorem toInt64_beUint64_encodeInt64 (x : Int) (hlo : -2 ^ 63 ≤ x) (hhi : x < 2 ^ 63) :
    toInt64 (beUint64 (encodeInt64 x)) = x := by
  have hu : (x % 2 ^ 64).toNat < 2 ^ 64 := by omega
  have hr : (List.range 8).reverse = [7, 6, 5, 4, 3, 2, 1, 0] := by decide
  have hb : beUint64 (encodeInt64 x) = (x % 2 ^ 64).toNat := by
    simp only [encodeInt64, beUint64, hr, List.map_cons, List.map_nil,
      List.foldl_cons, List.foldl_nil]
    generalize (x % 2 ^ 64).toNat = u at hu ⊢
    norm_num
    omega
  rw [hb]
  unfold toInt64
  split <;> omega

/-- Reading back a length that was written as 8 big-endian bytes. -/
theorem readInt64_encodeInt64 (x : Int) (rest : List Byte) (hlo : -2 ^ 63 ≤ x)
    (hhi : x < 2 ^ 63) : readInt64 (encodeInt64 x ++ rest) = some (x, rest) := by
  have hl := encodeInt64_length x
  have h8 : 8 ≤ (encodeInt64 x ++ rest).length := by simp [hl]
  have ht : (encodeInt64 x ++ rest).take 8 = encodeInt64 x := by
    rw [← hl]; exact List.take_left _ _
  have hd : (encodeInt64 x ++ rest).drop 8 = rest := by
    rw [← hl]; exact List.drop_left _ _
  simp only [readInt64, h8, if_true, ht, hd, toInt64_beUint64_encodeInt64 x hlo hhi]

theorem readInt64_rest (r r1 : List Byte) (x : Int) (h : readInt64 r = some (x, r1)) :
    r1.length + 8 = r.length := by
  unfold readInt64 at h
  split at h
  · cases h
    simp only [List.length_drop]
    omega
  · cases h

/-- A decoded frame used up at least its 16 header bytes. -/
theorem decodeFrame_consumes (env : WorkerEnv) (o : IterOracle) (input : List Byte)
    (d : Decoded) (h : decodeFrame env o input = .ok d) :
    d.rest.length + 16 ≤ input.length := by
  unfold decodeFrame at h
  split at h
  · cases h
  · rename_i csize r1 h1
    split at h
    · cases h
    · rename_i size r2 h2
      have e1 := readInt64_rest _ _ _ h1
      have e2 := readInt64_rest _ _ _ h2
      dsimp only at h
      repeat' split at h
      all_goals (cases h <;> simp only [readInto, List.length_drop] <;> omega)

theorem workerIter_consumes (env : WorkerEnv) (o : IterOracle) (input : List Byte)
    (m : Message) (rest : List Byte) (h : workerIter env o input = .handed m rest) :
    rest.length + 16 ≤ input.length := by
  unfold workerIter at h
  split at h
  · rename_i r hr
    subst h
    unfold decodeFrame at hr
    dsimp only at hr
    repeat' split at hr
    all_goals cases hr
  · rename_i d hd
    have := decodeFrame_consumes env o input d hd
    repeat' split at h
    all_goals (cases h <;> exact this)

/-- The loop stops by itself when the fuel covers the input: 16 bytes per
iteration. -/
theorem workerLoop_stops (env : WorkerEnv) (oracle : Nat → IterOracle) (fuel : Nat) :
    ∀ (k : Nat) (input : List Byte) (sent : List Message), input.length < 16 * fuel →
      ∀ s, workerLoop env oracle fuel k input sent ≠ .running s := by
  induction fuel with
  | zero => intro k input sent h; omega
  | succ n ih =>
    intro k input sent h s
    rw [workerLoop]
    split
    · rename_i m rest hm
      have := workerIter_consumes env (oracle k) input m rest hm
      exact ih (k + 1) rest _ (by omega) s
    · simp
    · simp

/-- A worker on a connection that delivers finitely many bytes ends: by
closing the connection or by a panic. -/
theorem worker_stops (env : WorkerEnv) (oracle : Nat → IterOracle) (conn : Option Nat)
    (input : List Byte) : ∀ s, worker env oracle conn input ≠ .running s := by
  intro s
  unfold worker
  split
  · simp
  · exact workerLoop_stops env oracle _ 0 input [] (by omega) s

/-- An iteration panics only on a declared length that is negative or cannot
be allocated, or on a payload that deserialises to the nil map. -/
theorem workerIter_fault_cases (env : WorkerEnv) (o : IterOracle) (input : List Byte)
    (f : Fault) (h : workerIter env o input = .fault f) :
    (∃ C r, readInt64 input = some (C, r) ∧
      (C < 0 ∨ (env.maxLen : Int) < C ∨
        ∃ U r2, readInt64 r = some (U, r2) ∧ (U < 0 ∨ (env.maxLen : Int) < U))) ∨
    (∃ payload, env.unmarshal payload = some none) := by
  unfold workerIter at h
  split at h
  · rename_i r hr
    subst h
    left
    unfold decodeFrame at hr
    split at hr
    · cases hr
    · rename_i C r1 h1
      refine ⟨C, r1, h1, ?_⟩
      split at hr
      · cases hr
      · rename_i U r2 h2
        split at hr
        · rename_i hmk
          unfold makeBytes at hmk
          split at hmk
          · rename_i hc
            rcases hc with hc | hc
            · exact Or.inl hc
            · exact Or.inr (Or.inl hc)
          · cases hmk
        · dsimp only at hr
          split at hr
          · cases hr
          · split at hr
            · cases hr
            · split at hr
              · rename_i hmk
                unfold makeBytes at hmk
                split at hmk
                · rename_i hc
                  exact Or.inr (Or.inr ⟨U, r2, h2, hc⟩)
                · cases hmk
              · repeat' split at hr
                all_goals cases hr
  · rename_i d hd
    right
    split at h
    · cases h
    · split at h
      · rename_i hn
        have hnil : d.data = none := by
          cases hdd : d.data with
          | none => rfl
          | some m => simp [GoMap.assign, hdd] at hn
        unfold decodeFrame at hd
        dsimp only at hd
        repeat' split at hd
        all_goals (cases hd <;> (dsimp only at hnil; subst hnil; exact ⟨_, by assumption⟩))
      · cases h

/-- The iteration on a frame whose two lengths were written as int64: what is
left of `decodeFrame` once the header is read. -/
theorem decodeFrame_header (env : WorkerEnv) (o : IterOracle) (C U : Int) (r2 : List Byte)
    (hC : -2 ^ 63 ≤ C ∧ C < 2 ^ 63) (hU : -2 ^ 63 ≤ U ∧ U < 2 ^ 63) :
    decodeFrame env o (encodeInt64 C ++ (encodeInt64 U ++ r2)) =
      match makeBytes env.maxLen C with
      | none => .error (.fault .makeslice)
      | some clen =>
        let rd := readInto o.connChunk o.connErr clen r2
        if rd.err ∨ (rd.n : Int) ≠ C then .error (.closed .cpayload)
        else
          match env.inflate rd.buf with
          | none => .error (.closed .zlibStart)
          | some stream =>
            match makeBytes env.maxLen U with
            | none => .error (.fault .makeslice)
            | some len =>
              let zr := readInto o.zChunk o.zErr len stream
              if zr.err ∨ (zr.n : Int) ≠ U then .error (.closed .uncompress)
              else
                match env.unmarshal zr.buf with
                | none => .error (.closed .parse)
                | some data => .ok { data := data, stream := stream, rest := rd.rest } := by
  simp only [decodeFrame, readInt64_encodeInt64 C _ hC.1 hC.2,
    readInt64_encodeInt64 U _ hU.1 hU.2]

/-- A read that fills a buffer as long as the body returns the body. -/
theorem readInto_full (chunk : Nat) (err : Bool) (body rest : List Byte)
    (h : (readInto chunk err body.length (body ++ rest)).n = body.length) :
    (readInto chunk err body.length (body ++ rest)).buf = body := by
  simp only [readInto] at h ⊢
  rw [h]
  simp

theorem readInto_n_le (chunk : Nat) (err : Bool) (len : Nat) (src : List Byte) :
    (readInto chunk err len src).n ≤ src.length := by
  simp only [readInto]
  omega

/-- A frame whose body decompresses to fewer bytes than it declares is never
decoded: the iteration ends in an error, and by closing the connection when
both lengths can be allocated. -/
theorem decodeFrame_short (env : WorkerEnv) (o : IterOracle) (U : Int)
    (body stream rest : List Byte) (hC : (body.length : Int) < 2 ^ 63) (hU : U < 2 ^ 63)
    (hz : env.inflate body = some stream) (hshort : (stream.length : Int) < U) :
    (∃ f, decodeFrame env o (encodeInt64 body.length ++ (encodeInt64 U ++ (body ++ rest)))
        = .error (.fault f) ∧ ¬ ((body.length : Int) ≤ env.maxLen ∧ U ≤ env.maxLen)) ∨
    (∃ why, decodeFrame env o (encodeInt64 body.length ++ (encodeInt64 U ++ (body ++ rest)))
        = .error (.closed why)) := by
  have hU0 : (0 : Int) ≤ U := by omega
  rw [decodeFrame_header env o body.length U (body ++ rest) ⟨by omega, hC⟩ ⟨by omega, hU⟩]
  by_cases hcl : (env.maxLen : Int) < body.length
  · left
    refine ⟨.makeslice, ?_, by omega⟩
    simp [makeBytes, hcl]
  · have hmk : makeBytes env.maxLen (body.length : Int) = some body.length := by
      simp [makeBytes, hcl]
    simp only [hmk]
    by_cases hrd : (readInto o.connChunk o.connErr body.length (body ++ rest)).err = true ∨
        ((readInto o.connChunk o.connErr body.length (body ++ rest)).n : Int) ≠ body.length
    · right
      exact ⟨.cpayload, by simp only [hrd, if_true]⟩
    · have hn : (readInto o.connChunk o.connErr body.length (body ++ rest)).n = body.length := by
        have := not_or.mp hrd
        have h2 := this.2
        simp only [ne_eq, not_not] at h2
        exact_mod_cast h2
      simp only [hrd, if_false, readInto_full _ _ _ _ hn, hz]
      by_cases hul : (env.maxLen : Int) < U
      · left
        refine ⟨.makeslice, ?_, by omega⟩
        have : makeBytes env.maxLen U = none := by simp [makeBytes, hul]
        simp only [this]
      · right
        have hmu : makeBytes env.maxLen U = some U.toNat := by
          simp [makeBytes, hul, hU0]
        have hle := readInto_n_le o.zChunk o.zErr U.toNat stream
        have hne : ((readInto o.zChunk o.zErr U.toNat stream).n : Int) ≠ U := by omega
        exact ⟨.uncompress, by simp only [hmu, hne, ne_eq, not_false_eq_true, or_true, if_true]⟩

/-- A frame whose body decompresses to at least the declared number U of
bytes, read without error and in one piece: the first U bytes of the stream
are deserialised, whatever follows them in the stream. -/
theorem decodeFrame_long (env : WorkerEnv) (o : IterOracle) (U : Nat)
    (body stream rest : List Byte) (hC : (body.length : Int) < 2 ^ 63)
    (hCm : body.length ≤ env.maxLen) (hUm : U ≤ env.maxLen) (hU : (U : Int) < 2 ^ 63)
    (hz : env.inflate body = some stream) (hlong : U ≤ stream.length)
    (hconn : o.connErr = false) (hchunk : body.length ≤ o.connChunk)
    (hzerr : o.zErr = false) (hzchunk : U ≤ o.zChunk) :
    decodeFrame env o (encodeInt64 body.length ++ (encodeInt64 U ++ (body ++ rest))) =
      match env.unmarshal (stream.take U) with
      | none => .error (.closed .parse)
      | some data => .ok { data := data, stream := stream, rest := rest } := by
  rw [decodeFrame_header env o body.length U (body ++ rest) ⟨by omega, hC⟩ ⟨by omega, hU⟩]
  have hmk : makeBytes env.maxLen (body.length : Int) = some body.length := by
    simp [makeBytes]; omega
  have hmu : makeBytes env.maxLen (U : Int) = some U := by
    simp [makeBytes]; omega
  have hn1 : min o.connChunk (min body.length (body ++ rest).length) = body.length := by
    simp only [List.length_append]; omega
  have hn2 : min o.zChunk (min U stream.length) = U := by omega
  simp only [hmk, hmu, readInto, hn1, hconn, hzerr]
  simp only [List.take_left, List.drop_left, Nat.sub_self, List.replicate_zero,
    List.append_nil, hz, hn2, Bool.false_eq_true, ne_eq, not_true_eq_false, or_self, if_false]

/-- C3 (as amended): a frame whose body decompresses to fewer bytes than the
declared uncompressed length U is a framing error. For every such frame,
whatever the reads deliver, the iteration hands no record to the sink; and
when both declared lengths can be allocated it ends by closing the
connection. -/
theorem short_stream_is_framing_error (env : WorkerEnv) (o : IterOracle) (U : Int)
    (body stream rest : List Byte) (hC : (body.length : Int) < 2 ^ 63) (hU : U < 2 ^ 63)
    (hz : env.inflate body = some stream) (hshort : (stream.length : Int) < U) :
    (∀ m r, workerIter env o (encodeInt64 body.length ++ (encodeInt64 U ++ (body ++ rest)))
        ≠ .handed m r) ∧
    ((body.length : Int) ≤ env.maxLen → U ≤ env.maxLen →
      ∃ why, workerIter env o (encodeInt64 body.length ++ (encodeInt64 U ++ (body ++ rest)))
        = .closed why) := by
  rcases decodeFrame_short env o U body stream rest hC hU hz hshort with
    ⟨f, hf, hnot⟩ | ⟨why, hw⟩
  · constructor
    · intro m r
      simp [workerIter, hf]
    · intro h1 h2
      exact absurd ⟨h1, h2⟩ hnot
  · constructor
    · intro m r
      simp [workerIter, hw]
    · intro _ _
      exact ⟨why, by simp [workerIter, hw]⟩

/-- C3 (witness): the frame that declares 12 bytes and carries the 11-byte
payload is closed. -/
theorem short_stream_is_framing_error_witness :
    demoEnv.inflate helloBody = some helloPayload ∧
    ((helloPayload.length : Int) < 12) ∧
    ((∀ m r, workerIter demoEnv eofOracle
        (encodeInt64 helloBody.length ++ (encodeInt64 12 ++ (helloBody ++ []))) ≠ .handed m r) ∧
      (((helloBody.length : Int) ≤ demoEnv.maxLen → (12 : Int) ≤ demoEnv.maxLen →
        ∃ why, workerIter demoEnv eofOracle
          (encodeInt64 helloBody.length ++ (encodeInt64 12 ++ (helloBody ++ []))) = .closed why))) :=
  ⟨by decide, by decide,
    short_stream_is_framing_error demoEnv eofOracle 12 helloBody helloPayload []
      (by decide) (by decide) (by decide) (by decide)⟩

/-- C3 (counterexample): the frame `longFrame` declares U = 11, its body
decompresses to 12 bytes, and the iteration hands a record to the sink: the
read of line 152 fills the 11-byte buffer without error and the rest of the
stream is never looked at. -/
theorem long_stream_is_accepted :
    readInt64 (longFrame.drop 8) = some (11, longBody) ∧
    demoEnv.inflate longBody = some (helloPayload ++ [192]) ∧
    (helloPayload ++ [192]).length = 12 ∧
    workerIter demoEnv demoOracle longFrame =
      .handed { Time := 2000,
                Data := some [("@timestamp", Value.time 1000), ("msg", Value.str "hello")] } [] := by
  decide

/-- C4 (the code at the failing input): a header whose compressed length is
-1 is read without error, and the allocation of line 137 then panics; the
iteration neither hands a record to the sink nor closes the connection, and
the panic of the worker goroutine ends the process. -/
theorem negative_length_panics :
    readInt64 negativeFrame = some (-1, negativeFrame.drop 8) ∧
    workerIter demoEnv demoOracle negativeFrame = .fault .makeslice ∧
    listen demoEnv true [negativeAccept, goodAccept] =
      .crashed .makeslice [.fault .makeslice []] := by
  decide

/-- C5 (the code at the failing input): after an accept that returns an
error, and with it a nil connection, the loop starts a worker on that nil
connection; the worker panics at line 121 and the process ends, so the
accept that would have followed is never made. -/
theorem failed_accept_crashes :
    worker demoEnv failedAccept.oracle failedAccept.conn failedAccept.input = .fault .nilConn [] ∧
    listen demoEnv true [failedAccept, goodAccept] = .crashed .nilConn [.fault .nilConn []] ∧
    listen demoEnv true [goodAccept, goodAccept] ≠ .crashed .nilConn [.fault .nilConn []] := by
  decide

/-- Removing a key that is absent changes nothing. -/
theorem filter_absent_key (fields : Fields) (k : String) (hk : fields.lookup k = none) :
    fields.filter (fun e => e.1 != k) = fields := by
  rw [List.filter_eq_self]
  intro e he
  have h := (List.lookup_eq_none_iff.mp hk) e he
  simp only [bne_iff_ne, ne_eq] at h ⊢
  exact fun hc => h hc.symm

/-- C7 (as amended): when the decoded mapping is not nil and lacks the key
`@timestamp`, the record handed to the sink is the decoded mapping with that
key added, holding the clock reading of line 166 as a time value (not a
string); the record's `Time` is the separate, later clock reading of
line 168. -/
theorem missing_timestamp_is_clock_value (env : WorkerEnv) (o : IterOracle)
    (input : List Byte) (d : Decoded) (fields : Fields)
    (hd : decodeFrame env o input = .ok d) (hf : d.data = some fields)
    (hk : fields.lookup "@timestamp" = none) :
    ∃ m, workerIter env o input = .handed m d.rest ∧ m.Time = o.tMsg ∧
      m.Data = some (("@timestamp", Value.time o.tStamp) :: fields) ∧
      m.Data.index "@timestamp" = Value.time o.tStamp := by
  refine ⟨{ Time := o.tMsg, Data := some (("@timestamp", Value.time o.tStamp) :: fields) },
    ?_, rfl, rfl, ?_⟩
  · simp [workerIter, hd, hf, GoMap.has, GoMap.assign, hk, filter_absent_key fields _ hk]
  · simp [GoMap.index, List.lookup]

/-- C7 (witness): the frame `longFrame`, whose first 11 decompressed bytes
are the mapping msg: hello. -/
theorem missing_timestamp_is_clock_value_witness :
    decodeFrame demoEnv demoOracle longFrame =
      .ok { data := some [("msg", Value.str "hello")], stream := helloPayload ++ [192],
            rest := [] } ∧
    ∃ m, workerIter demoEnv demoOracle longFrame = .handed m [] ∧ m.Time = 2000 ∧
      m.Data = some [("@timestamp", Value.time 1000), ("msg", Value.str "hello")] ∧
      m.Data.index "@timestamp" = Value.time 1000 :=
  ⟨by decide,
    missing_timestamp_is_clock_value demoEnv demoOracle longFrame
      { data := some [("msg", Value.str "hello")], stream := helloPayload ++ [192], rest := [] }
      [("msg", Value.str "hello")] (by decide) rfl (by decide)⟩

/-- C7 (counterexample): the frame `longFrame` is read without error (the
read of line 152 fills its 11-byte buffer while the stream holds one byte
more) and decodes to the mapping msg: hello, which lacks `@timestamp`; the
record handed to the sink has `Time` 2000, and under `@timestamp` the time
value 1000, which is not the string that formats its `Time`. -/
theorem missing_timestamp_is_not_formatted_time :
    demoEnv.unmarshal helloPayload = some (some [("msg", Value.str "hello")]) ∧
    workerIter demoEnv demoOracle longFrame =
      .handed { Time := 2000,
                Data := some [("@timestamp", Value.time 1000), ("msg", Value.str "hello")] } [] ∧
    GoMap.index (some [("@timestamp", Value.time 1000), ("msg", Value.str "hello")]) "@timestamp"
      ≠ Value.str (demoFormat 2000) := by
  decide

/-- C9: with `ssl_cert`, `ssl_key` and `ssl_ca` all set and loadable, every
listener that `Init` returns requires and verifies a client certificate
against a pool holding exactly the certificate decoded from the CA file; and
`Init` does return one when the timeout is positive. -/
theorem Init_requires_and_verifies_client_cert (ce : CertEnv) (conf : Conf)
    (cert : Certificate) (pemdata : List Byte) (block : PemBlock) (cacert : X509)
    (hcert : 0 < conf.ssl_cert.length) (hkey : 0 < conf.ssl_key.length)
    (hca : 0 < conf.ssl_ca.length)
    (hpair : ce.LoadX509KeyPair conf.ssl_cert conf.ssl_key = some cert)
    (hfile : ce.ReadFile conf.ssl_ca = some pemdata)
    (hpem : ce.pemDecode pemdata = some block) (htype : block.type = "CERTIFICATE")
    (hparse : ce.ParseCertificate block.bytes = some cacert) :
    (∀ v, Init ce conf = some v →
      v.tlsConfig.ClientAuth = ClientAuthType.RequireAndVerifyClientCert ∧
      v.tlsConfig.ClientCAs = some [cacert]) ∧
    (0 < conf.timeout → ∃ v, Init ce conf = some v) := by
  constructor
  · intro v hv
    by_cases ht : conf.timeout ≤ 0
    · simp [Init, ht] at hv
    · simp [Init, ht, hcert, hkey, hca, hpair, hfile, hpem, htype, hparse] at hv
      subst hv
      simp
  · intro ht
    have ht2 : ¬ conf.timeout ≤ 0 := by omega
    simp [Init, ht2, hcert, hkey, hca, hpair, hfile, hpem, htype, hparse]

/-- C9 (witness): the configuration `mutualConf` on the files of `demoCerts`. -/
theorem Init_requires_and_verifies_client_cert_witness :
    (∀ v, Init demoCerts mutualConf = some v →
      v.tlsConfig.ClientAuth = ClientAuthType.RequireAndVerifyClientCert ∧
      v.tlsConfig.ClientCAs = some [⟨7⟩]) ∧
    ((0 : Int) < mutualConf.timeout → ∃ v, Init demoCerts mutualConf = some v) :=
  Init_requires_and_verifies_client_cert demoCerts mutualConf ⟨1⟩ [45, 45, 45]
    { type := "CERTIFICATE", bytes := [48, 130] } ⟨7⟩
    (by decide) (by decide) (by decide) (by decide) (by decide) (by decide) rfl (by decide)

end in_logear_forwarder

/-! ## Theorems: the forwarder -/

namespace fluentd_forwarder

/-- The method `connect` never changes the tag. -/
theorem connect_tag (o : ConnectOracle) (v : Fluentd_forwarder) (r : Connected)
    (h : connect o v = .ok r) : r.v.tag = v.tag := by
  unfold connect at h
  dsimp only at h
  repeat' split at h
  all_goals (cases h; try rfl)

/-- The first statement of the loop body (lines 84-89) never changes the tag. -/
theorem step_tag (o : ConnectOracle) (v : Fluentd_forwarder) (r : Connected)
    (h : (if v.conn.isNone = true then connect o v
          else Except.ok { err := none, v := v, events := [] }) = .ok r) :
    r.v.tag = v.tag := by
  split at h
  · exact connect_tag o v r h
  · cases h; rfl

/-- Setting the host a second time changes nothing. -/
theorem defaultedHost_idem (env : SendEnv) (d d1 : GoMap) (h : defaultedHost env d = some d1) :
    defaultedHost env d1 = some d1 := by
  unfold defaultedHost at h
  split at h
  · cases d with
    | none => simp [GoMap.assign] at h
    | some m =>
      simp only [GoMap.assign, Option.some.injEq] at h
      subst h
      by_cases hh : env.hostname = ""
      · simp [defaultedHost, GoMap.index, GoMap.assign, List.lookup, hh, List.filter_filter]
      · simp [defaultedHost, GoMap.index, List.lookup, hh]
  · rename_i hc
    cases h
    simp only [defaultedHost, hc, if_false]

/-- One iteration and then the rest: the loop over `a :: rest` is the loop
over `[a]`, continued over `rest` when that one ends in a retry. -/
theorem sendLoop_cons (env : SendEnv) (err : Option GoError) (a : Attempt)
    (rest : List Attempt) (v : Fluentd_forwarder) (m : Message) (tr : List Event) :
    sendLoop env err (a :: rest) v m tr =
      match sendLoop env err [a] v m tr with
      | .retrying v2 m2 tr2 => sendLoop env err rest v2 m2 tr2
      | r => r := by
  simp only [sendLoop]
  repeat' split
  all_goals simp_all [sendLoop]

/-- What one iteration that returns has done: the record it returns is the
one it was given with the host set, and it either wrote the encoding of that
record, the write succeeding on an open connection, or failed to encode it. -/
theorem sendLoop_single_returned (env : SendEnv) (err : Option GoError) (a : Attempt)
    (v : Fluentd_forwarder) (m : Message) (tr : List Event) (e : Option GoError)
    (v1 : Fluentd_forwarder) (m1 : Message) (tr1 : List Event)
    (h : sendLoop env err [a] v m tr = .returned e v1 m1 tr1) :
    e = err ∧ m1.Time = m.Time ∧ defaultedHost env m.Data = some m1.Data ∧
    ((a.writeOk = true ∧ ∃ c bytes, env.Marshal v.tag env.now m1.Data = some bytes ∧
        c.closed = false ∧ v1.conn = some c ∧ tr1.getLast? = some (.wrote c bytes)) ∨
      (env.Marshal v.tag env.now m1.Data = none ∧ tr1.getLast? = some .bogusMessage)) := by
  simp only [sendLoop] at h
  split at h
  · cases h
  · rename_i r hstep
    have htag := step_tag a.c v r hstep
    split at h
    · cases h
    · split at h
      · cases h
      · rename_i data hdata
        split at h
        · rename_i hm
          cases h
          refine ⟨rfl, rfl, hdata, Or.inr ⟨?_, by simp⟩⟩
          rw [← htag]; exact hm
        · rename_i bytes hm
          split at h
          · cases h
          · rename_i c hc
            split at h
            · rename_i hw
              cases h
              simp only [Bool.and_eq_true, Bool.not_eq_true'] at hw
              refine ⟨rfl, rfl, hdata, Or.inl ⟨hw.1, c, bytes, ?_, hw.2, hc, by simp⟩⟩
              rw [← htag]; exact hm
            · cases h

/-- What one iteration that ends in a retry leaves behind: the same tag, the
same record, possibly with the host set. -/
theorem sendLoop_single_retrying (env : SendEnv) (err : Option GoError) (a : Attempt)
    (v : Fluentd_forwarder) (m : Message) (tr : List Event)
    (v2 : Fluentd_forwarder) (m2 : Message) (tr2 : List Event)
    (h : sendLoop env err [a] v m tr = .retrying v2 m2 tr2) :
    v2.tag = v.tag ∧ m2.Time = m.Time ∧
    (m2.Data = m.Data ∨ defaultedHost env m.Data = some m2.Data) := by
  simp only [sendLoop] at h
  split at h
  · cases h
  · rename_i r hstep
    have htag := step_tag a.c v r hstep
    split at h
    · cases h
      exact ⟨htag, rfl, Or.inl rfl⟩
    · split at h
      · cases h
      · rename_i data hdata
        split at h
        · cases h
        · split at h
          · cases h
          · split at h
            · cases h
            · cases h
              exact ⟨htag, rfl, Or.inr hdata⟩

/-- The same over any number of iterations. -/
theorem sendLoop_retrying (env : SendEnv) (err : Option GoError) (attempts : List Attempt) :
    ∀ (v : Fluentd_forwarder) (m : Message) (tr : List Event)
      (v2 : Fluentd_forwarder) (m2 : Message) (tr2 : List Event),
      sendLoop env err attempts v m tr = .retrying v2 m2 tr2 →
      v2.tag = v.tag ∧ m2.Time = m.Time ∧
      (m2.Data = m.Data ∨ defaultedHost env m.Data = some m2.Data) := by
  induction attempts with
  | nil =>
    intro v m tr v2 m2 tr2 h
    simp only [sendLoop] at h
    cases h
    exact ⟨rfl, rfl, Or.inl rfl⟩
  | cons a rest ih =>
    intro v m tr v2 m2 tr2 h
    rw [sendLoop_cons] at h
    split at h
    · rename_i v3 m3 tr3 h1
      obtain ⟨ht1, hT1, hd1⟩ := sendLoop_single_retrying env err a v m tr v3 m3 tr3 h1
      obtain ⟨ht2, hT2, hd2⟩ := ih v3 m3 tr3 v2 m2 tr2 h
      refine ⟨ht2.trans ht1, hT2.trans hT1, ?_⟩
      rcases hd1 with hd1 | hd1
      · rw [hd1] at hd2; exact hd2
      · rcases hd2 with hd2 | hd2
        · rw [hd2]; exact Or.inr hd1
        · have := defaultedHost_idem env _ _ hd1
          rw [this] at hd2
          rw [← Option.some.inj hd2]
          exact Or.inr hd1
    · rename_i hne
      exact absurd h (hne v2 m2 tr2)

/-- A loop that returns does so in one of its iterations, all the iterations
before it having ended in a retry. -/
theorem sendLoop_split (env : SendEnv) (err : Option GoError) (attempts : List Attempt) :
    ∀ (v : Fluentd_forwarder) (m : Message) (tr : List Event) (e : Option GoError)
      (v1 : Fluentd_forwarder) (m1 : Message) (tr1 : List Event),
      sendLoop env err attempts v m tr = .returned e v1 m1 tr1 →
      ∃ pre a post v2 m2 tr2, attempts = pre ++ a :: post ∧
        sendLoop env err pre v m tr = .retrying v2 m2 tr2 ∧
        sendLoop env err [a] v2 m2 tr2 = .returned e v1 m1 tr1 := by
  induction attempts with
  | nil => intro v m tr e v1 m1 tr1 h; simp [sendLoop] at h
  | cons a rest ih =>
    intro v m tr e v1 m1 tr1 h
    rw [sendLoop_cons] at h
    split at h
    · rename_i v3 m3 tr3 h1
      obtain ⟨pre, b, post, v2, m2, tr2, hsplit, hpre, hb⟩ := ih v3 m3 tr3 e v1 m1 tr1 h
      refine ⟨a :: pre, b, post, v2, m2, tr2, by simp [hsplit], ?_, hb⟩
      rw [sendLoop_cons, h1]
      exact hpre
    · exact ⟨[], a, rest, v, m, tr, rfl, by simp [sendLoop], h⟩

/-- The loop over a list that ends in a retry, continued. -/
theorem sendLoop_append (env : SendEnv) (err : Option GoError) (pre post : List Attempt) :
    ∀ (v : Fluentd_forwarder) (m : Message) (tr : List Event)
      (v2 : Fluentd_forwarder) (m2 : Message) (tr2 : List Event),
      sendLoop env err pre v m tr = .retrying v2 m2 tr2 →
      sendLoop env err (pre ++ post) v m tr = sendLoop env err post v2 m2 tr2 := by
  induction pre with
  | nil =>
    intro v m tr v2 m2 tr2 h
    simp only [sendLoop] at h
    cases h
    rfl
  | cons a rest ih =>
    intro v m tr v2 m2 tr2 h
    rw [sendLoop_cons] at h
    rw [List.cons_append, sendLoop_cons]
    split at h
    · rename_i v3 m3 tr3 h1
      exact ih v3 m3 tr3 v2 m2 tr2 h
    · rename_i hne
      exact absurd h (hne v2 m2 tr2)

/-- C1: if `Send` returns, it returns in one iteration of its retry loop, all
the iterations before it having ended in a retry (`Send` over them alone is
still retrying), and in that iteration either the write succeeded
(`writeOk`), on an open connection that the forwarder then holds, of the
encoding of the record, as the last thing done, or the serialisation of the
record failed. The record is the one given, with the timestamp checked
(lines 78-81) and the host set (lines 90-92). No outcome of a lookup, dial,
handshake or write makes `Send` return otherwise. -/
theorem Send_returns_only_after_write (env : SendEnv) (attempts : List Attempt)
    (v : Fluentd_forwarder) (message : Message) (err : Option GoError)
    (v1 : Fluentd_forwarder) (m1 : Message) (trace : List Event)
    (h : Send env attempts v message = .returned err v1 m1 trace) :
    ∃ pre a post d0,
      attempts = pre ++ a :: post ∧
      (∃ v2 m2 tr2, Send env pre v message = .retrying v2 m2 tr2) ∧
      Send env (pre ++ [a]) v message = .returned err v1 m1 trace ∧
      m1.Time = message.Time ∧
      checkedTimestamp env message = some d0 ∧ defaultedHost env d0 = some m1.Data ∧
      ((a.writeOk = true ∧ ∃ c bytes, env.Marshal v.tag env.now m1.Data = some bytes ∧
          c.closed = false ∧ v1.conn = some c ∧ trace.getLast? = some (.wrote c bytes)) ∨
        (env.Marshal v.tag env.now m1.Data = none ∧
          trace.getLast? = some .bogusMessage)) := by
  have key : ∀ (e0 : Option GoError) (m0 : Message) (tr0 : List Event),
      sendLoop env e0 attempts v m0 tr0 = .returned err v1 m1 trace →
      ∃ pre a post, attempts = pre ++ a :: post ∧
        (∃ v2 m2 tr2, sendLoop env e0 pre v m0 tr0 = .retrying v2 m2 tr2) ∧
        sendLoop env e0 (pre ++ [a]) v m0 tr0 = .returned err v1 m1 trace ∧
        m1.Time = m0.Time ∧ defaultedHost env m0.Data = some m1.Data ∧
        ((a.writeOk = true ∧ ∃ c bytes, env.Marshal v.tag env.now m1.Data = some bytes ∧
            c.closed = false ∧ v1.conn = some c ∧ trace.getLast? = some (.wrote c bytes)) ∨
          (env.Marshal v.tag env.now m1.Data = none ∧
            trace.getLast? = some .bogusMessage)) := by
    intro e0 m0 tr0 hl
    obtain ⟨pre, a, post, v2, m2, tr2, hsplit, hpre, ha⟩ :=
      sendLoop_split env e0 attempts v m0 tr0 err v1 m1 trace hl
    obtain ⟨htag, hT, hd⟩ := sendLoop_retrying env e0 pre v m0 tr0 v2 m2 tr2 hpre
    obtain ⟨_, hT1, hd1, hw⟩ := sendLoop_single_returned env e0 a v2 m2 tr2 err v1 m1 trace ha
    refine ⟨pre, a, post, hsplit, ⟨v2, m2, tr2, hpre⟩, ?_, hT1.trans hT, ?_, ?_⟩
    · rw [sendLoop_append env e0 pre [a] v m0 tr0 v2 m2 tr2 hpre]
      exact ha
    · rcases hd with hd | hd
      · rw [← hd]; exact hd1
      · have hi := defaultedHost_idem env _ _ hd
        rw [hi] at hd1
        rw [← Option.some.inj hd1]
        exact hd
    · rw [htag] at hw
      exact hw
  unfold Send at h
  split at h
  · rename_i t hp
    obtain ⟨pre, a, post, hsplit, hpre, hret, hT, hd, hw⟩ := key none message [] h
    refine ⟨pre, a, post, message.Data, hsplit, ?_, ?_, hT, ?_, hd, hw⟩
    · simpa only [Send, hp] using hpre
    · simpa only [Send, hp] using hret
    · simp only [checkedTimestamp, hp]
  · rename_i hp
    split at h
    · cases h
    · rename_i data hdata
      obtain ⟨pre, a, post, hsplit, hpre, hret, hT, hd, hw⟩ :=
        key (some .parse) { message with Data := data } [.bogusTimestamp] h
      refine ⟨pre, a, post, data, hsplit, ?_, ?_, hT, ?_, hd, hw⟩
      · simpa only [Send, hp, hdata] using hpre
      · simpa only [Send, hp, hdata] using hret
      · simp only [checkedTimestamp, hp, hdata]

/-- C1 (witness): a send that meets a failed dial and a failed write before
it succeeds at the third iteration. -/
theorem Send_returns_only_after_write_witness :
    Send demoSendEnv retries (demoForwarder true) stampedMessage
      = .returned none securedForwarder sentStamped retriesTrace ∧
    ∃ pre a post d0,
      retries = pre ++ a :: post ∧
      (∃ v2 m2 tr2, Send demoSendEnv pre (demoForwarder true) stampedMessage
        = .retrying v2 m2 tr2) ∧
      Send demoSendEnv (pre ++ [a]) (demoForwarder true) stampedMessage
        = .returned none securedForwarder sentStamped retriesTrace ∧
      sentStamped.Time = stampedMessage.Time ∧
      checkedTimestamp demoSendEnv stampedMessage = some d0 ∧
      defaultedHost demoSendEnv d0 = some sentStamped.Data ∧
      ((a.writeOk = true ∧ ∃ c bytes,
          demoSendEnv.Marshal (demoForwarder true).tag demoSendEnv.now sentStamped.Data
            = some bytes ∧
          c.closed = false ∧ securedForwarder.conn = some c ∧
          retriesTrace.getLast? = some (.wrote c bytes)) ∨
        (demoSendEnv.Marshal (demoForwarder true).tag demoSendEnv.now sentStamped.Data = none ∧
          retriesTrace.getLast? = some .bogusMessage)) :=
  ⟨by decide,
    Send_returns_only_after_write demoSendEnv retries (demoForwarder true) stampedMessage none
      securedForwarder sentStamped retriesTrace (by decide)⟩

/-- C2 (the code at the failing input): for a record without `@timestamp`
the first connect and the first write succeed, the record is written with
the timestamp filled in, and `Send` returns the error of the failed time
parse; for the same record with a well-formed `@timestamp` it returns nil. -/
theorem Send_returns_parse_error :
    Send demoSendEnv [{ c := okConnect, writeOk := true }] (demoForwarder false) helloMessage
      = .returned (some .parse) connectedForwarder sentHello
          [.bogusTimestamp, .dialed "192.0.2.10:24224", .wrote rawConn sentBytes] ∧
    Send demoSendEnv [{ c := okConnect, writeOk := true }] (demoForwarder false) stampedMessage
      = .returned none connectedForwarder sentStamped
          [.dialed "192.0.2.10:24224", .wrote rawConn sentBytes] := by
  decide

/-- C6 (the code at the failing input): when the handshake fails, `connect`
returns the error while the forwarder holds the raw connection it had just
stored (closed by then), not nil; a failed dial leaves it nil. The next
iteration of the retry loop therefore does not call `connect`: it writes to
the closed raw connection, and only the failure of that write empties the
connection state. -/
theorem handshake_failure_leaves_connection :
    connect badHandshake (demoForwarder true) =
      .ok { err := some .handshake, v := staleForwarder,
            events := [.dialed "192.0.2.10:24224", .handshake "logs.example.org" false,
              .closed { rawConn with tls := true, closed := true }] } ∧
    staleForwarder.conn = some { rawConn with closed := true } ∧
    connect badDial (demoForwarder true) =
      .ok { err := some .dial, v := demoForwarder true,
            events := [.dialFailed "192.0.2.10:24224"] } ∧
    Send demoSendEnv [{ c := badHandshake, writeOk := true }, { c := okConnect, writeOk := true }]
        (demoForwarder true) stampedMessage =
      .retrying { staleForwarder with conn := none } sentStamped
        [.dialed "192.0.2.10:24224", .handshake "logs.example.org" false,
         .closed { rawConn with tls := true, closed := true }, .sleep,
         .writeFailed { rawConn with closed := true }, .closed { rawConn with closed := true },
         .sleep] := by
  decide

/-- Without transport security `connect` performs no handshake, and the
connection it stores on success is the raw one. -/
theorem connect_plaintext (o : ConnectOracle) (v : Fluentd_forwarder) (r : Connected)
    (htls : v.tlsEnabled = false) (h : connect o v = .ok r) :
    (∀ s ok, Event.handshake s ok ∉ r.events) ∧
    (r.err = none → ∃ c, r.v.conn = some c ∧ c.tls = false ∧ c.closed = false) := by
  unfold connect at h
  dsimp only at h
  repeat' split at h
  all_goals (cases h <;> simp_all)

/-- C8 (as amended): when none of `ssl_cert`, `ssl_key` and `ssl_ca` is set,
`loadCerts` succeeds and leaves transport security disabled, and every
`connect` of the resulting forwarder performs no handshake and, when it
succeeds, stores the raw plaintext connection. -/
theorem loadCerts_plaintext_without_material (ce : CertEnv) (v : Fluentd_forwarder)
    (hcert : v.SSLCertificate = "") (hkey : v.SSLKey = "") (hca : v.SSLCA = "") :
    ∃ v1, loadCerts ce v = some v1 ∧ v1.tlsEnabled = false ∧
      ∀ o r, connect o v1 = .ok r →
        (∀ s ok, Event.handshake s ok ∉ r.events) ∧
        (r.err = none → ∃ c, r.v.conn = some c ∧ c.tls = false ∧ c.closed = false) := by
  refine ⟨{ v with tlsEnabled := false,
                   tlsConfig := { v.tlsConfig with MinVersion := VersionTLS10 } }, ?_, rfl, ?_⟩
  · simp [loadCerts, hcert, hkey, hca]
  · intro o r h
    exact connect_plaintext o _ r rfl h

/-- C8 (witness): the forwarder `demoForwarder true` has no material set; its
flag is reset and a connect is plaintext. -/
theorem loadCerts_plaintext_without_material_witness :
    ((demoForwarder true).SSLCertificate = "" ∧ (demoForwarder true).SSLKey = "" ∧
      (demoForwarder true).SSLCA = "") ∧
    ∃ v1, loadCerts demoCerts (demoForwarder true) = some v1 ∧ v1.tlsEnabled = false ∧
      ∀ o r, connect o v1 = .ok r →
        (∀ s ok, Event.handshake s ok ∉ r.events) ∧
        (r.err = none → ∃ c, r.v.conn = some c ∧ c.tls = false ∧ c.closed = false) :=
  ⟨⟨rfl, rfl, rfl⟩,
    loadCerts_plaintext_without_material demoCerts (demoForwarder true) rfl rfl rfl⟩

/-- C8 (counterexample): with `ssl_ca` set and neither `ssl_cert` nor
`ssl_key`, `Init` (through `loadCerts`) enables transport security, and
`connect` performs a handshake and keeps the TLS connection. -/
theorem ca_alone_enables_tls :
    caOnlyConf.ssl_cert = "" ∧ caOnlyConf.ssl_key = "" ∧
    Init demoCerts caOnlyConf =
      some { demoForwarder true with
             SSLCA := "ca.crt"
             tlsConfig := { MinVersion := VersionTLS10, RootCAs := some [⟨7⟩] } } ∧
    (Init demoCerts caOnlyConf).map (fun v => v.tlsEnabled) = some true ∧
    (Init demoCerts caOnlyConf).map
        (fun v => (connect okConnect v).toOption.map (fun r => (r.v.conn, r.events))) =
      some (some (some { rawConn with tls := true },
        [.dialed "192.0.2.10:24224", .handshake "logs.example.org" true])) := by
  decide

/-- C10 (the code at the failing input): `Init` accepts a hosts list whose
only entry has no port; the expression does not match it, the submatch is
nil, and `connect` panics at line 116 with an index out of range, whatever
the random draw. -/
theorem connect_panics_without_port :
    Init demoCerts noPortConf =
      some { demoForwarder false with hosts := ["localhost"], tlsConfig := { MinVersion := VersionTLS10 } } ∧
    FindSubmatch "localhost" = none ∧
    (Init demoCerts noPortConf).map (connect okConnect) = some (.error .indexRange) ∧
    (Init demoCerts noPortConf).map (connect { okConnect with r1 := 12345 })
      = some (.error .indexRange) := by
  decide

/-- How `connect` leaves the forwarder when it returns an error: untouched
after a failed lookup or dial, and holding the closed raw connection after a
failed handshake. -/
theorem connect_failure_state (o : ConnectOracle) (v : Fluentd_forwarder) (r : Connected)
    (h : connect o v = .ok r) :
    (r.err = some .dns → r.v = v) ∧ (r.err = some .dial → r.v = v) ∧
    (r.err = some .handshake → ∃ c, r.v.conn = some c ∧ c.tls = false ∧ c.closed = true) := by
  unfold connect at h
  dsimp only at h
  repeat' split at h
  all_goals (cases h <;> simp)

/-- A CA file alone enables transport security: with `ssl_ca` set and
loadable and no key pair, `loadCerts` sets the flag and the pool of roots
holds the certificate of the file. -/
theorem loadCerts_ca_enables_tls (ce : CertEnv) (v : Fluentd_forwarder)
    (pemdata : List Byte) (block : PemBlock) (cert : X509)
    (hcert : v.SSLCertificate = "") (hca : 0 < v.SSLCA.length)
    (hfile : ce.ReadFile v.SSLCA = some pemdata)
    (hpem : ce.pemDecode pemdata = some block) (htype : block.type = "CERTIFICATE")
    (hparse : ce.ParseCertificate block.bytes = some cert) :
    ∃ v1, loadCerts ce v = some v1 ∧ v1.tlsEnabled = true ∧
      v1.tlsConfig.RootCAs = some [cert] := by
  simp [loadCerts, hcert, hca, hfile, hpem, htype, hparse]

end fluentd_forwarder

end Logear
